import Mathlib

/-!
Shallow embedding of the Liquid-Book market-maker core (src/utils.js,
src/orderbook.js, src/strategy.js).  Prices, amounts and volumes are
modelled as rationals; JavaScript `Math.round x` is `⌊x + 1/2⌋` and
`Math.floor x` is `⌊x⌋`.  An `undefined` numeric configuration value is
modelled as `Option.none`.  Venue calls (edit, cancel, place) are
recorded in a trace, and the venue's responses are supplied as explicit
oracle values, so that theorems quantify over every venue behaviour.
-/

namespace LiquidBook

/-- src/utils.js `adjustPriceToTickSize`: round the price to the nearest
multiple of `tickSize`; pass the price through when `tickSize` is
undefined or `≤ 0`. -/
def adjustPriceToTickSize (price : ℚ) (tickSize : Option ℚ) : ℚ :=
  match tickSize with
  | none => price
  | some t => if t ≤ 0 then price else ⌊price / t + 1/2⌋ * t

/-- src/utils.js `adjustAmountToStepSize`: floor the amount to a multiple
of `stepSize`; pass the amount through when `stepSize` is undefined or
`≤ 0`. -/
def adjustAmountToStepSize (amount : ℚ) (stepSize : Option ℚ) : ℚ :=
  match stepSize with
  | none => amount
  | some s => if s ≤ 0 then amount else ⌊amount / s⌋ * s

/-- src/orderbook.js `OrderBookAnalyzer.calculateVwap`: walk the first
`min(length, levels)` entries, skipping entries with non-positive size,
and return the volume-weighted average price; `null` (here `none`) when
the side is empty, `levels ≤ 0`, or the accumulated volume is zero.
The code does not require entry prices to be positive. -/
def calculateVwap (orders : List (ℚ × ℚ)) (levels : ℤ) : Option ℚ :=
  if orders.isEmpty ∨ levels ≤ 0 then none
  else
    let depth := min orders.length levels.toNat
    let counted := (orders.take depth).filter (fun e => 0 < e.2)
    let totalVolume := (counted.map (fun e => e.2)).sum
    let weightedSum := (counted.map (fun e => e.1 * e.2)).sum
    if totalVolume = 0 then none
    else some (weightedSum / totalVolume)

/-- Order-book snapshot: bids and asks as (price, size) lists. -/
structure OrderBook where
  bids : List (ℚ × ℚ)
  asks : List (ℚ × ℚ)

/-- src/orderbook.js `OrderBookAnalyzer.calculateDepthMidPrice`: average
of the two sides' VWAPs; if either VWAP is unavailable, fall back to the
arithmetic mean of the best bid and best ask; `none` if that is also
unavailable. -/
def calculateDepthMidPrice (book : OrderBook) (levels : ℤ) : Option ℚ :=
  match calculateVwap book.bids levels, calculateVwap book.asks levels with
  | some bidVwap, some askVwap => some ((bidVwap + askVwap) / 2)
  | _, _ =>
    match book.bids, book.asks with
    | (bestBid, _) :: _, (bestAsk, _) :: _ => some ((bestBid + bestAsk) / 2)
    | _, _ => none

/-- A valid order book in the sense of claim C2: bids strictly
descending, asks strictly ascending, all sizes positive, both sides
non-empty. -/
def ValidBook (book : OrderBook) : Prop :=
  book.bids ≠ [] ∧ book.asks ≠ [] ∧
  book.bids.Pairwise (fun x y => y.1 < x.1) ∧
  book.asks.Pairwise (fun x y => x.1 < y.1) ∧
  (∀ e ∈ book.bids, 0 < e.2) ∧ (∀ e ∈ book.asks, 0 < e.2)

/-- Modelled from the spec: "`vwap(levels, depth)`: weighted average
price over the first `depth` valid entries (price>0, size>0) of a side;
returns *none* if total weighted volume is zero or `depth≤0`" — the
spec-side VWAP, whose validity filter also requires a positive price. -/
def vwapPerSpec (orders : List (ℚ × ℚ)) (levels : ℤ) : Option ℚ :=
  if levels ≤ 0 then none
  else
    let valid := (orders.take (min orders.length levels.toNat)).filter
      (fun e => 0 < e.1 ∧ 0 < e.2)
    let totalWeightedVolume := (valid.map (fun e => e.2)).sum
    if totalWeightedVolume = 0 then none
    else some ((valid.map (fun e => e.1 * e.2)).sum / totalWeightedVolume)

/-- The VWAP described with a size-only validity filter: weighted
average over the entries with positive size among the first `depth`
entries of the side, `none` when the total weighted volume is zero or
the depth is non-positive.  Stated separately from `calculateVwap` so
that agreement with the code is a theorem, not a definition. -/
def vwapSizeOnly (orders : List (ℚ × ℚ)) (levels : ℤ) : Option ℚ :=
  if levels ≤ 0 then none
  else
    let valid := (orders.take (min orders.length levels.toNat)).filter (fun e => 0 < e.2)
    let totalWeightedVolume := (valid.map (fun e => e.2)).sum
    if totalWeightedVolume = 0 then none
    else some ((valid.map (fun e => e.1 * e.2)).sum / totalWeightedVolume)

/-- src/strategy.js `runCycle`, inventory-skew block (lines 195-219):
starting from the baseline quotes `mid ± spread/2`, when both the skew
intensity and the position limit are positive the inventory ratio is
`position / positionLimit` clamped to `[-1, 1]`, the skew adjustment is
`spread × ratio × intensity`, and both quotes are shifted by the negated
adjustment; otherwise the baseline quotes are returned unchanged. -/
def skewPrices (mid spreadAbs position intensity positionLimit : ℚ) : ℚ × ℚ :=
  let initialTargetBuyPrice := mid - spreadAbs / 2
  let initialTargetSellPrice := mid + spreadAbs / 2
  if 0 < intensity ∧ 0 < positionLimit then
    let r := max (-1) (min 1 (position / positionLimit))
    let skewAdjustment := spreadAbs * r * intensity
    (initialTargetBuyPrice - skewAdjustment, initialTargetSellPrice - skewAdjustment)
  else
    (initialTargetBuyPrice, initialTargetSellPrice)

/-- Result of the final price alignment in src/strategy.js `runCycle`:
either a pair of final target prices, or planning for the cycle is
aborted (the code returns before any order is placed or edited, after
attempting stale-order cleanup). -/
inductive PricePlan
  | ok (buy sell : ℚ)
  | crossedAbort
deriving DecidableEq

/-- src/strategy.js `runCycle`, final price adjustment (lines 223-241):
tick-align both prices; if the aligned buy is `≥` the aligned sell and
the tick size is truthy, lower the buy by one tick and re-align; if
still crossed, raise the sell by one tick and re-align; if still
crossed, abort the cycle. -/
def alignAndFixCross (buy0 sell0 : ℚ) (tickSize : Option ℚ) : PricePlan :=
  let buy1 := adjustPriceToTickSize buy0 tickSize
  let sell1 := adjustPriceToTickSize sell0 tickSize
  match tickSize with
  | none => .ok buy1 sell1
  | some t =>
    if sell1 ≤ buy1 ∧ t ≠ 0 then
      let buy2 := adjustPriceToTickSize (buy1 - t) (some t)
      if sell1 ≤ buy2 then
        let sell2 := adjustPriceToTickSize (sell1 + t) (some t)
        if sell2 ≤ buy2 then .crossedAbort
        else .ok buy2 sell2
      else .ok buy2 sell1
    else .ok buy1 sell1

/-- A single trade row returned by the venue's trade-history query. -/
structure Trade where
  timestamp : ℕ
  amount : ℚ

/-- Volume-tracker state of src/strategy.js: accumulated base volume and
the `since` watermark (undefined before the first successful update). -/
structure VolumeState where
  totalTradedBaseVolume : ℚ
  lastTradeTimestamp : Option ℕ

/-- src/strategy.js `updateTradedVolume`: on a failed fetch the state is
unchanged; on a successful fetch, sum the amounts of trades with
timestamp strictly above the watermark (`?? 0`), and only when that new
volume is positive add it to the total and advance the watermark to the
maximum seen timestamp plus one. -/
def updateTradedVolume (st : VolumeState) (fetch : Except Unit (List Trade)) :
    VolumeState :=
  match fetch with
  | .error _ => st
  | .ok trades =>
    if trades.isEmpty then st
    else
      let wm := st.lastTradeTimestamp.getD 0
      let newTrades := trades.filter (fun t => wm < t.timestamp)
      let newVolume := (newTrades.map (fun t => t.amount)).sum
      let latestTimestamp := newTrades.foldl (fun acc t => max acc t.timestamp) wm
      if 0 < newVolume then
        { totalTradedBaseVolume := st.totalTradedBaseVolume + newVolume,
          lastTradeTimestamp := some (latestTimestamp + 1) }
      else st

/-- Venue response to an edit attempt, matching the branches of
src/strategy.js `manageOrder`: success, the "no material change"
response (Binance -5027), order not found, or any other edit error. -/
inductive EditOutcome
  | okEdited
  | noOpUnchanged
  | orderMissing
  | otherError
deriving DecidableEq

/-- Venue response to a placement attempt: a new order with an id, a
response without a usable id, or a thrown error. -/
inductive PlaceOutcome
  | placed (newId : ℕ)
  | noIdReturned
  | failed
deriving DecidableEq

/-- Venue behaviour oracle for one reconciliation call: the edit
capability flag (`exchange.has['editOrder']`), and the responses the
venue would give to an edit, a cancel and a placement. -/
structure Venue where
  supportsEdit : Bool
  editOutcome : EditOutcome
  cancelOk : Bool
  placeOutcome : PlaceOutcome

/-- A call issued to the venue gateway, recorded in order. -/
inductive VenueCall
  | editCall
  | cancelCall
  | placeCall
deriving DecidableEq

/-- Intermediate state after the tracked-order phase of `manageOrder`:
the possibly cleared order id, the `placeNewOrder` flag, the (possibly
forced-off) `shouldPlace` flag, the (possibly zeroed) target amount, and
the venue calls issued so far. -/
structure TrackedPhase where
  orderIdAfter : Option ℕ
  placeNewOrder : Bool
  shouldPlaceAfter : Bool
  targetAmountAfter : ℚ
  calls : List VenueCall

/-- src/strategy.js `manageOrder`, tracked branch (lines 393-473): when
the target amount is below `minAmount`, force `shouldPlace` off and zero
the amount; with `shouldPlace` on, either edit (keeping the id on
success or on the no-op response; clearing it and marking `placeNewOrder`
on order-not-found; cancelling, clearing the id and marking
`placeNewOrder` on any other edit error) or, when the venue does not
support edits, cancel, clear the id and mark `placeNewOrder`; with
`shouldPlace` off, cancel and clear the id unconditionally.  The
service-level `cancelOrder` swallows its own errors (src/exchange.js
lines 320-339), so a cancel never redirects control flow. -/
def manageOrderTracked (venue : Venue) (oid : ℕ) (shouldPlace : Bool)
    (targetAmount minAmount : ℚ) : TrackedPhase :=
  let sp := if targetAmount < minAmount then false else shouldPlace
  let amt := if targetAmount < minAmount then 0 else targetAmount
  if sp then
    if venue.supportsEdit then
      match venue.editOutcome with
      | .okEdited => ⟨some oid, false, sp, amt, [.editCall]⟩
      | .noOpUnchanged => ⟨some oid, false, sp, amt, [.editCall]⟩
      | .orderMissing => ⟨none, true, sp, amt, [.editCall]⟩
      | .otherError => ⟨none, true, sp, amt, [.editCall, .cancelCall]⟩
    else
      ⟨none, true, sp, amt, [.cancelCall]⟩
  else
    ⟨none, false, sp, amt, [.cancelCall]⟩

/-- First phase of src/strategy.js `manageOrder`: an untracked side goes
straight to the placement decision with `placeNewOrder` set; a tracked
side runs the tracked branch. -/
def manageOrderStep1 (venue : Venue) (orderId : Option ℕ) (shouldPlace : Bool)
    (targetAmount minAmount : ℚ) : TrackedPhase :=
  match orderId with
  | none => ⟨none, true, shouldPlace, targetAmount, []⟩
  | some oid => manageOrderTracked venue oid shouldPlace targetAmount minAmount

/-- src/strategy.js `manageOrder` (lines 378-512), one per-side
reconciliation call: the tracked phase followed by the placement block —
a single placement attempt when `placeNewOrder`, `shouldPlace` and
`targetAmount ≥ minAmount` all hold, whose id is recorded on success and
cleared otherwise; when `placeNewOrder` holds but the gate fails, the id
is left cleared.  Returns the tracked order id after the call and the
trace of venue calls issued. -/
def manageOrder (venue : Venue) (orderId : Option ℕ) (shouldPlace : Bool)
    (targetAmount minAmount : ℚ) : Option ℕ × List VenueCall :=
  let s := manageOrderStep1 venue orderId shouldPlace targetAmount minAmount
  if s.placeNewOrder then
    if s.shouldPlaceAfter then
      if minAmount ≤ s.targetAmountAfter then
        match venue.placeOutcome with
        | .placed newId => (some newId, s.calls ++ [.placeCall])
        | .noIdReturned => (none, s.calls ++ [.placeCall])
        | .failed => (none, s.calls ++ [.placeCall])
      else (none, s.calls)
    else (none, s.calls)
  else
    (s.orderIdAfter, s.calls)

/-- The pair of tracked order ids held by the strategy. -/
structure TrackedOrders where
  currentBuyOrderId : Option ℕ
  currentSellOrderId : Option ℕ

/-- Venue response to a stale-order cancel attempt: success, order not
found, or any other error. -/
inductive CancelOutcome
  | okCancelled
  | orderMissing
  | otherError
deriving DecidableEq

/-- src/strategy.js `cancelStaleOrdersIfNeeded` (lines 515-554): for
each tracked id, the id field is optimistically set to `null` before the
cancel call is awaited; the cancel outcomes are only logged, so they are
parameters that the resulting state does not depend on. -/
def cancelStaleOrdersIfNeeded (st : TrackedOrders)
    (buyOutcome sellOutcome : CancelOutcome) : TrackedOrders × List VenueCall :=
  let buyCalls : List VenueCall :=
    match st.currentBuyOrderId with
    | none => []
    | some _ => [.cancelCall]
  let sellCalls : List VenueCall :=
    match st.currentSellOrderId with
    | none => []
    | some _ => [.cancelCall]
  (⟨none, none⟩, buyCalls ++ sellCalls)

/-- Helper: the tracked phase of `manageOrder` never issues a placement
call; the placement block is the only call site of `place`. -/
theorem manageOrderStep1_no_place (venue : Venue) (orderId : Option ℕ)
    (shouldPlace : Bool) (targetAmount minAmount : ℚ) :
    ((manageOrderStep1 venue orderId shouldPlace targetAmount minAmount).calls.count
      VenueCall.placeCall) = 0 := by
  rcases orderId with _ | oid
  · rfl
  · rw [manageOrderStep1, manageOrderTracked]
    rcases venue with ⟨se, eo, co, po⟩
    dsimp only
    split_ifs <;> rcases se <;> rcases eo <;> simp [List.count_cons]

/-- C8 — counterexample: on the negative amount `-1` with `stepSize = 2`
the step alignment returns `-2`, which is not a non-negative value, so
the claim "always returns a non-negative multiple of stepSize" fails for
arbitrary amounts. -/
theorem adjustAmountToStepSize_negative_input :
    adjustAmountToStepSize (-1) (some 2) = -2 ∧
    ¬ (0 ≤ adjustAmountToStepSize (-1) (some 2)) := by
  have h : adjustAmountToStepSize (-1) (some 2) = -2 := by
    norm_num [adjustAmountToStepSize]
  rw [h]
  norm_num

/-- C8 (amended) — for every `stepSize > 0`, step alignment never
increases the amount and returns an integer multiple of the step size,
and the result is non-negative whenever the input amount is
non-negative. -/
theorem adjustAmountToStepSize_floor_props (a s : ℚ) (hs : 0 < s) :
    adjustAmountToStepSize a (some s) ≤ a ∧
    (∃ k : ℤ, adjustAmountToStepSize a (some s) = k * s) ∧
    (0 ≤ a → 0 ≤ adjustAmountToStepSize a (some s)) := by
  have hns : ¬ s ≤ 0 := not_le.mpr hs
  have hval : adjustAmountToStepSize a (some s) = ⌊a / s⌋ * s := by
    rw [adjustAmountToStepSize]; simp [hns]
  refine ⟨?_, ⟨⌊a / s⌋, hval⟩, ?_⟩
  · rw [hval]
    have hfl : (⌊a / s⌋ : ℚ) ≤ a / s := Int.floor_le (a / s)
    have := mul_le_mul_of_nonneg_right hfl (le_of_lt hs)
    calc (⌊a / s⌋ : ℚ) * s ≤ (a / s) * s := this
    _ = a := div_mul_cancel₀ a (ne_of_gt hs)
  · intro ha
    rw [hval]
    have hq : (0 : ℚ) ≤ a / s := div_nonneg ha (le_of_lt hs)
    have hk : (0 : ℤ) ≤ ⌊a / s⌋ := Int.floor_nonneg.mpr hq
    have : (0 : ℚ) ≤ (⌊a / s⌋ : ℚ) := by exact_mod_cast hk
    exact mul_nonneg this (le_of_lt hs)

/-- C8 (amended) — witness at `a = 3`, `s = 2`. -/
theorem adjustAmountToStepSize_floor_props_witness :
    (0 : ℚ) < 2 ∧
    (adjustAmountToStepSize 3 (some 2) ≤ 3 ∧
     (∃ k : ℤ, adjustAmountToStepSize 3 (some 2) = k * 2) ∧
     ((0 : ℚ) ≤ 3 → 0 ≤ adjustAmountToStepSize 3 (some 2))) :=
  ⟨by norm_num, adjustAmountToStepSize_floor_props 3 2 (by norm_num)⟩

/-- C10 — when the tick size (resp. step size) is undefined or `≤ 0`,
price alignment (resp. amount alignment) is a defined pass-through: the
input is returned unchanged, for every input.  Both functions are total
Lean functions, so no division-by-zero error can occur. -/
theorem adjust_degenerate_passthrough (p a : ℚ) (tick step : Option ℚ)
    (ht : ∀ t, tick = some t → t ≤ 0) (hs : ∀ s, step = some s → s ≤ 0) :
    adjustPriceToTickSize p tick = p ∧ adjustAmountToStepSize a step = a := by
  constructor
  · cases tick with
    | none => rfl
    | some t =>
      rw [adjustPriceToTickSize]
      simp [ht t rfl]
  · cases step with
    | none => rfl
    | some s =>
      rw [adjustAmountToStepSize]
      simp [hs s rfl]

/-- C10 — witness: tick size `-1` (defined but non-positive) and an
undefined step size both pass the inputs through. -/
theorem adjust_degenerate_passthrough_witness :
    adjustPriceToTickSize 5 (some (-1)) = 5 ∧
    adjustAmountToStepSize 7 none = 7 :=
  adjust_degenerate_passthrough 5 7 (some (-1)) none
    (by intro t h; cases h; norm_num) (by intro s h; cases h)

/-- C7 — counterexample: on the single-entry side `[(0, 5)]` with depth
1 the spec's VWAP (which discards entries whose price is not positive)
is `none`, but the code counts the entry and returns `0`: the code does
not filter on `price > 0`. -/
theorem calculateVwap_price_filter_counterexample :
    vwapPerSpec [((0 : ℚ), (5 : ℚ))] 1 = none ∧
    calculateVwap [((0 : ℚ), (5 : ℚ))] 1 = some 0 := by
  constructor <;> norm_num [vwapPerSpec, calculateVwap, List.filter]

/-- C7 (amended) — `calculateVwap` returns the size-weighted average
price over the entries with positive size (price positivity not
required) among the first `depth` entries, and `none` when the total
weighted volume is zero or the depth is `≤ 0`; on the example book the
bid VWAP is 99.95, the ask VWAP is 100.15 and the depth mid is
100.05. -/
theorem calculateVwap_sizeOnly_and_example (orders : List (ℚ × ℚ)) (levels : ℤ) :
    calculateVwap orders levels = vwapSizeOnly orders levels ∧
    calculateVwap [(100, 5), (99.9, 5)] 2 = some 99.95 ∧
    calculateVwap [(100.1, 5), (100.2, 5)] 2 = some 100.15 ∧
    calculateDepthMidPrice ⟨[(100, 5), (99.9, 5)], [(100.1, 5), (100.2, 5)]⟩ 2 =
      some 100.05 := by
  refine ⟨?_, ?_, ?_, ?_⟩
  · by_cases hl : levels ≤ 0
    · simp [calculateVwap, vwapSizeOnly, hl]
    · by_cases he : orders = []
      · subst he
        simp [calculateVwap, vwapSizeOnly, hl]
      · have hne : orders.isEmpty = false := by
          simp [List.isEmpty_iff, he]
        simp [calculateVwap, vwapSizeOnly, hl, hne, he]
  · norm_num [calculateVwap, List.filter]
  · norm_num [calculateVwap, List.filter]
  · norm_num [calculateDepthMidPrice, calculateVwap, List.filter]

/-- C2 — counterexample: the book with bids `[(100, 1), (1, 1000)]` and
asks `[(101, 1)]` is valid (strictly descending bids, ascending asks,
positive sizes, both sides non-empty), yet at `levels = 2` the depth mid
price is `9291/182 ≈ 51.05`, which is below the best bid 100 (so not
between best bid and best ask) and differs from the simple mid
`(100 + 101)/2`. -/
theorem calculateDepthMidPrice_outside_touch :
    ValidBook ⟨[(100, 1), (1, 1000)], [(101, 1)]⟩ ∧
    calculateDepthMidPrice ⟨[(100, 1), (1, 1000)], [(101, 1)]⟩ 2 = some (9291/182) ∧
    (9291/182 : ℚ) < 100 ∧ (9291/182 : ℚ) ≠ (100 + 101) / 2 := by
  refine ⟨?_, ?_, by norm_num, by norm_num⟩
  · refine ⟨by simp, by simp, ?_, ?_, ?_, ?_⟩ <;> norm_num [List.pairwise_cons]
  · norm_num [calculateDepthMidPrice, calculateVwap, List.filter]

/-- C2 (amended) — for every valid order book and depth, the depth mid
price is defined, and it either is the average of the two sides' VWAPs
(hence lies between the smaller and the larger of the two VWAPs), or,
when a VWAP is unavailable, equals the arithmetic mean of the best bid
and the best ask. -/
theorem calculateDepthMidPrice_between_vwaps (book : OrderBook) (levels : ℤ)
    (hv : ValidBook book) :
    ∃ m, calculateDepthMidPrice book levels = some m ∧
      ((∃ bv av, calculateVwap book.bids levels = some bv ∧
                 calculateVwap book.asks levels = some av ∧
                 m = (bv + av) / 2 ∧ min bv av ≤ m ∧ m ≤ max bv av) ∨
       ((calculateVwap book.bids levels = none ∨ calculateVwap book.asks levels = none) ∧
        m = (book.bids.headI.1 + book.asks.headI.1) / 2)) := by
  obtain ⟨hb, ha, -, -, -, -⟩ := hv
  obtain ⟨bb, bs, hbids⟩ := List.exists_cons_of_ne_nil hb
  obtain ⟨ba, tas, hasks⟩ := List.exists_cons_of_ne_nil ha
  cases hvb : calculateVwap book.bids levels with
  | none =>
    refine ⟨(bb.1 + ba.1) / 2, ?_, Or.inr ⟨Or.inl rfl, ?_⟩⟩
    · rw [calculateDepthMidPrice, hvb, hbids, hasks]
    · rw [hbids, hasks]; rfl
  | some bv =>
    cases hva : calculateVwap book.asks levels with
    | none =>
      refine ⟨(bb.1 + ba.1) / 2, ?_, Or.inr ⟨Or.inr rfl, ?_⟩⟩
      · rw [calculateDepthMidPrice, hvb, hva, hbids, hasks]
      · rw [hbids, hasks]; rfl
    | some av =>
      refine ⟨(bv + av) / 2, ?_, Or.inl ⟨bv, av, rfl, rfl, rfl, ?_, ?_⟩⟩
      · rw [calculateDepthMidPrice, hvb, hva]
      · rcases le_total bv av with h | h
        · rw [min_eq_left h]; linarith
        · rw [min_eq_right h]; linarith
      · rcases le_total bv av with h | h
        · rw [max_eq_right h]; linarith
        · rw [max_eq_left h]; linarith

/-- C2 (amended) — witness on the valid one-level book with best bid 100
and best ask 101 at `levels = 1`. -/
theorem calculateDepthMidPrice_between_vwaps_witness :
    ValidBook ⟨[(100, 5)], [(101, 5)]⟩ ∧
    (∃ m, calculateDepthMidPrice ⟨[(100, 5)], [(101, 5)]⟩ 1 = some m ∧
      ((∃ bv av, calculateVwap (OrderBook.bids ⟨[(100, 5)], [(101, 5)]⟩) 1 = some bv ∧
                 calculateVwap (OrderBook.asks ⟨[(100, 5)], [(101, 5)]⟩) 1 = some av ∧
                 m = (bv + av) / 2 ∧ min bv av ≤ m ∧ m ≤ max bv av) ∨
       ((calculateVwap (OrderBook.bids ⟨[(100, 5)], [(101, 5)]⟩) 1 = none ∨
         calculateVwap (OrderBook.asks ⟨[(100, 5)], [(101, 5)]⟩) 1 = none) ∧
        m = ((OrderBook.bids ⟨[(100, 5)], [(101, 5)]⟩).headI.1 +
             (OrderBook.asks ⟨[(100, 5)], [(101, 5)]⟩).headI.1) / 2))) :=
  ⟨⟨by simp, by simp, by norm_num [List.pairwise_cons], by norm_num [List.pairwise_cons],
    by norm_num, by norm_num⟩,
   calculateDepthMidPrice_between_vwaps ⟨[(100, 5)], [(101, 5)]⟩ 1
    ⟨by simp, by simp, by norm_num [List.pairwise_cons], by norm_num [List.pairwise_cons],
     by norm_num, by norm_num⟩⟩

/-- C1 — for every planned cycle with a positive tick size, the final
price adjustment either aborts the cycle (so no order is placed or
edited: the code returns before `manageOrder` is reached) or yields
final prices with buy strictly below sell. -/
theorem alignAndFixCross_uncrossed (buy0 sell0 t : ℚ) (ht : 0 < t) :
    alignAndFixCross buy0 sell0 (some t) = PricePlan.crossedAbort ∨
    ∃ b s, alignAndFixCross buy0 sell0 (some t) = PricePlan.ok b s ∧ b < s := by
  simp only [alignAndFixCross]
  split_ifs with h1 h2 h3
  · exact Or.inl rfl
  · refine Or.inr ⟨_, _, rfl, ?_⟩
    exact lt_of_not_le h3
  · refine Or.inr ⟨_, _, rfl, ?_⟩
    exact lt_of_not_le h2
  · refine Or.inr ⟨_, _, rfl, ?_⟩
    rcases not_and_or.mp h1 with h | h
    · exact lt_of_not_le h
    · exact absurd (ne_of_gt ht) h

/-- C1 — witness at `buy0 = sell0 = 10`, `t = 1`. -/
theorem alignAndFixCross_uncrossed_witness :
    (0 : ℚ) < 1 ∧
    (alignAndFixCross 10 10 (some 1) = PricePlan.crossedAbort ∨
     ∃ b s, alignAndFixCross 10 10 (some 1) = PricePlan.ok b s ∧ b < s) :=
  ⟨by norm_num, alignAndFixCross_uncrossed 10 10 1 (by norm_num)⟩

/-- C4 — whenever the skew intensity and position limit are positive,
the inventory ratio is clamped to `[-1, 1]` for every position, both
quotes are shifted by the negated skew `spread × ratio × intensity`,
and at `positionLimit = 1`, `intensity = 1/2`, `spread = 10`,
`position = 1` both quotes sit exactly 5 below the unskewed baseline. -/
theorem skewPrices_clamped_shift (mid spreadAbs position intensity positionLimit : ℚ)
    (hi : 0 < intensity) (hl : 0 < positionLimit) :
    (-1 ≤ max (-1) (min 1 (position / positionLimit)) ∧
     max (-1) (min 1 (position / positionLimit)) ≤ 1) ∧
    skewPrices mid spreadAbs position intensity positionLimit =
      (mid - spreadAbs / 2 - spreadAbs * (max (-1) (min 1 (position / positionLimit))) * intensity,
       mid + spreadAbs / 2 - spreadAbs * (max (-1) (min 1 (position / positionLimit))) * intensity) ∧
    skewPrices mid 10 1 (1/2) 1 = ((mid - 10 / 2) - 5, (mid + 10 / 2) - 5) := by
  refine ⟨⟨le_max_left _ _, ?_⟩, ?_, ?_⟩
  · exact max_le (by norm_num) (min_le_left _ _)
  · rw [skewPrices]
    simp [hi, hl]
  · rw [skewPrices]
    norm_num

/-- C4 — witness at `mid = 100`, `spread = 10`, `position = 1`,
`intensity = 1/2`, `positionLimit = 1`. -/
theorem skewPrices_clamped_shift_witness :
    ((0 : ℚ) < 1/2 ∧ (0 : ℚ) < 1) ∧
    ((-1 ≤ max (-1) (min 1 ((1 : ℚ) / 1)) ∧ max (-1) (min 1 ((1 : ℚ) / 1)) ≤ 1) ∧
     skewPrices 100 10 1 (1/2) 1 =
       (100 - 10 / 2 - 10 * (max (-1) (min 1 ((1 : ℚ) / 1))) * (1/2),
        100 + 10 / 2 - 10 * (max (-1) (min 1 ((1 : ℚ) / 1))) * (1/2)) ∧
     skewPrices 100 10 1 (1/2) 1 = ((100 - 10 / 2) - 5, (100 + 10 / 2) - 5)) :=
  ⟨⟨by norm_num, by norm_num⟩,
   skewPrices_clamped_shift 100 10 1 (1/2) 1 (by norm_num) (by norm_num)⟩

/-- C6 — the volume tracker leaves the state unchanged on a failed
fetch, never decreases the total across any update, and never counts a
trade whose timestamp equals (or is below) the prior watermark: dropping
such trades from the fetched list does not change the result. -/
theorem updateTradedVolume_props (st : VolumeState) :
    (∀ e, updateTradedVolume st (Except.error e) = st) ∧
    (∀ res, st.totalTradedBaseVolume ≤ (updateTradedVolume st res).totalTradedBaseVolume) ∧
    (∀ w trades, st.lastTradeTimestamp = some w →
      updateTradedVolume st (Except.ok trades) =
        updateTradedVolume st (Except.ok (trades.filter (fun t => w < t.timestamp)))) := by
  refine ⟨fun e => rfl, ?_, ?_⟩
  · intro res
    cases res with
    | error e => exact le_refl _
    | ok trades =>
      rw [updateTradedVolume]
      dsimp only
      split_ifs with h1 h2
      · exact le_refl _
      · dsimp only
        linarith
      · exact le_refl _
  · intro w trades hw
    have hidem : (trades.filter (fun t => w < t.timestamp)).filter (fun t => w < t.timestamp)
        = trades.filter (fun t => w < t.timestamp) := by
      rw [List.filter_filter]
      apply List.filter_congr
      intro a ha
      simp
    by_cases he : trades = []
    · subst he
      simp [updateTradedVolume]
    · have hL : ¬ (trades.isEmpty = true) := by simp [List.isEmpty_iff, he]
      by_cases hall : trades.filter (fun t => w < t.timestamp) = []
      · have hsum : ((trades.filter (fun t => w < t.timestamp)).map (fun t => t.amount)).sum
            = 0 := by
          rw [hall]; rfl
        have hR : (trades.filter (fun t => w < t.timestamp)).isEmpty = true := by
          simp [List.isEmpty_iff, hall]
        simp only [updateTradedVolume, hw, Option.getD_some]
        rw [if_neg hL, if_pos hR]
        simp [hsum]
      · have hR : ¬ ((trades.filter (fun t => w < t.timestamp)).isEmpty = true) := by
          simp [List.isEmpty_iff, hall]
        simp only [updateTradedVolume, hw, Option.getD_some]
        rw [if_neg hL, if_neg hR]
        simp only [hidem]

/-- C6 — witness: failed fetch leaves the state `⟨0, some 5⟩` unchanged,
and a fetched trade at exactly the watermark 5 is equivalent to fetching
nothing. -/
theorem updateTradedVolume_props_witness :
    updateTradedVolume ⟨0, some 5⟩ (Except.error ()) = ⟨0, some 5⟩ ∧
    updateTradedVolume ⟨0, some 5⟩ (Except.ok [⟨5, 3⟩]) =
      updateTradedVolume ⟨0, some 5⟩
        (Except.ok (List.filter (fun t => 5 < t.timestamp) [⟨5, 3⟩])) :=
  ⟨(updateTradedVolume_props ⟨0, some 5⟩).1 (),
   (updateTradedVolume_props ⟨0, some 5⟩).2.2 5 [⟨5, 3⟩] rfl⟩

/-- C3 — one per-side reconciliation call issues at most one placement
call to the venue, for every tracked-order state, target, venue edit
capability and venue response (including edit failures that fall through
to the same-cycle cancel+create fallback). -/
theorem manageOrder_at_most_one_place (venue : Venue) (orderId : Option ℕ)
    (shouldPlace : Bool) (targetAmount minAmount : ℚ) :
    ((manageOrder venue orderId shouldPlace targetAmount minAmount).2.count
      VenueCall.placeCall) ≤ 1 := by
  have h0 := manageOrderStep1_no_place venue orderId shouldPlace targetAmount minAmount
  rw [manageOrder]
  split_ifs <;> rcases hpo : venue.placeOutcome <;>
    simp [List.count_append, List.count_cons, h0]

/-- C5 — when a resting order is tracked and the new target amount falls
strictly below `minAmount`, the reconciliation call cancels the tracked
order, clears its id, and issues no placement: the trace is exactly one
cancel call, for every venue behaviour. -/
theorem manageOrder_below_min_cancels (venue : Venue) (oid : ℕ) (shouldPlace : Bool)
    (targetAmount minAmount : ℚ) (h : targetAmount < minAmount) :
    manageOrder venue (some oid) shouldPlace targetAmount minAmount =
      (none, [VenueCall.cancelCall]) := by
  have hs : manageOrderStep1 venue (some oid) shouldPlace targetAmount minAmount =
      ⟨none, false, false, 0, [VenueCall.cancelCall]⟩ := by
    rw [manageOrderStep1, manageOrderTracked]
    simp [h]
  rw [manageOrder]
  rw [hs]
  simp

/-- C5 — witness: tracked order 7, target amount 1, minimum 2. -/
theorem manageOrder_below_min_cancels_witness :
    (1 : ℚ) < 2 ∧
    manageOrder ⟨true, EditOutcome.okEdited, true, PlaceOutcome.placed 9⟩ (some 7) true 1 2 =
      (none, [VenueCall.cancelCall]) :=
  ⟨by norm_num,
   manageOrder_below_min_cancels ⟨true, EditOutcome.okEdited, true, PlaceOutcome.placed 9⟩
     7 true 1 2 (by norm_num)⟩

/-- C9 — after the stale-order cleanup both tracked ids are `null`, for
every starting state and every pair of cancel outcomes — including a
cancel that fails with an error other than not-found — because the ids
are cleared before the cancel outcomes are known. -/
theorem cancelStaleOrders_clears_ids (st : TrackedOrders)
    (buyOutcome sellOutcome : CancelOutcome) :
    (cancelStaleOrdersIfNeeded st buyOutcome sellOutcome).1.currentBuyOrderId = none ∧
    (cancelStaleOrdersIfNeeded st buyOutcome sellOutcome).1.currentSellOrderId = none :=
  ⟨rfl, rfl⟩

end LiquidBook
